import Mathlib

/-!
Verification of the user-space network stack (virtual devices, IRQ
subsystem, protocol dispatch, ARP cache, IP codec) against its design
specification.  Rust state is embedded as explicit state passing:
`&mut self` methods become functions returning the result together with
the updated value; `Vec::push` appends at the end of a `List` and
`Vec::pop` removes the last element; `HashMap` becomes an association
list with first-match lookup; machine integers become `Nat`/`Int`
(values stay far below the overflow bounds in every modelled path);
`anyhow` error strings become inductive error kinds; a Rust panic
(out-of-bounds indexing or slicing) is a distinct outcome `panicked`,
kept separate from a returned `Err`.
-/

namespace Spec2Proof

/-! ## IP codec (src/ip.rs) -/

/-- Outcome of a fallible Rust computation: a returned error
(`parseError`, for the two `anyhow!` returns in `IPHeader::parse`) is
distinguished from a panic (`panicked`, raised by out-of-bounds `data[i]`
indexing or an invalid `data[a..b]` slice range). -/
inductive PFailure
  | parseError
  | panicked
deriving DecidableEq, Repr

inductive IPVersion
  | IPv4
  | IPv6
deriving DecidableEq, Repr

inductive IPProtocol
  | ICMP
  | TCP
  | UDP
deriving DecidableEq, Repr

structure IPHeader where
  version : IPVersion
  ihl : Nat
  precedence : Nat
  delay : Bool
  throughput : Bool
  reliability : Bool
  total_length : Nat
  identification : Nat
  df : Bool
  mf : Bool
  fragment_offset : Nat
  ttl : Nat
  protocol : IPProtocol
  header_checksum : Nat
  source_ip_address : Nat
  destination_ip_address : Nat
  options : List Nat
deriving DecidableEq, Repr

structure IPPacket where
  header : IPHeader
  data : List Nat
deriving DecidableEq, Repr

/-- Rust `data[i]` on a slice: the byte, or a panic when out of bounds. -/
def byteAt (data : List Nat) (i : Nat) : Except PFailure Nat :=
  match data[i]? with
  | some b => Except.ok b
  | none => Except.error PFailure.panicked

/-- Rust `data[s..e].to_vec()`: panics unless `s ≤ e ≤ data.len()`. -/
def sliceBytes (data : List Nat) (s e : Nat) : Except PFailure (List Nat) :=
  if s ≤ e ∧ e ≤ data.length then Except.ok ((data.drop s).take (e - s))
  else Except.error PFailure.panicked

/-- Rust `data[s..].to_vec()`: panics unless `s ≤ data.len()`. -/
def sliceFrom (data : List Nat) (s : Nat) : Except PFailure (List Nat) :=
  if s ≤ data.length then Except.ok (data.drop s)
  else Except.error PFailure.panicked

/-- `u16::from_be_bytes([hi, lo])`. -/
def u16be (hi lo : Nat) : Nat := hi * 256 + lo

/-- `u32::from_be_bytes([a, b, c, d])`. -/
def u32be (a b c d : Nat) : Nat := ((a * 256 + b) * 256 + c) * 256 + d

/-- `IPHeader::parse`, field by field in source order, so that the first
failing access determines the outcome exactly as in the Rust code. -/
def IPHeader.parse (data : List Nat) : Except PFailure IPHeader := do
  let b0 ← byteAt data 0
  let version ←
    match b0 >>> 4 with
    | 4 => Except.ok IPVersion.IPv4
    | 6 => Except.ok IPVersion.IPv6
    | _ => Except.error PFailure.parseError
  let ihl := b0 &&& 0x0F
  let b1 ← byteAt data 1
  let precedence := b1 >>> 5
  let delay := (b1 >>> 4) &&& 1 == 1
  let throughput := (b1 >>> 3) &&& 1 == 1
  let reliability := (b1 >>> 2) &&& 1 == 1
  let b2 ← byteAt data 2
  let b3 ← byteAt data 3
  let total_length := u16be b2 b3
  let b4 ← byteAt data 4
  let b5 ← byteAt data 5
  let identification := u16be b4 b5
  let b6 ← byteAt data 6
  let df := (b6 >>> 6) &&& 1 == 1
  let mf := (b6 >>> 5) &&& 1 == 1
  let b7 ← byteAt data 7
  let fragment_offset := u16be (b6 &&& 0x1F) b7
  let ttl ← byteAt data 8
  let b9 ← byteAt data 9
  let protocol ←
    match b9 with
    | 1 => Except.ok IPProtocol.ICMP
    | 6 => Except.ok IPProtocol.TCP
    | 17 => Except.ok IPProtocol.UDP
    | _ => Except.error PFailure.parseError
  let b10 ← byteAt data 10
  let b11 ← byteAt data 11
  let header_checksum := u16be b10 b11
  let b12 ← byteAt data 12
  let b13 ← byteAt data 13
  let b14 ← byteAt data 14
  let b15 ← byteAt data 15
  let source_ip_address := u32be b12 b13 b14 b15
  let b16 ← byteAt data 16
  let b17 ← byteAt data 17
  let b18 ← byteAt data 18
  let b19 ← byteAt data 19
  let destination_ip_address := u32be b16 b17 b18 b19
  let options ← sliceBytes data 20 (ihl * 4)
  Except.ok
    { version := version, ihl := ihl, precedence := precedence
      delay := delay, throughput := throughput, reliability := reliability
      total_length := total_length, identification := identification
      df := df, mf := mf, fragment_offset := fragment_offset
      ttl := ttl, protocol := protocol, header_checksum := header_checksum
      source_ip_address := source_ip_address
      destination_ip_address := destination_ip_address
      options := options }

/-- `IPHeader::data_offset`: `(ihl << 2) as usize` (ihl comes from a
low nibble, so the `u8` shift never wraps). -/
def IPHeader.data_offset (h : IPHeader) : Nat := h.ihl <<< 2

/-- `IPPacket::parse`: parse the header, then slice the payload at the
data offset. -/
def IPPacket.parse (data : List Nat) : Except PFailure IPPacket := do
  let header ← IPHeader.parse data
  let rest ← sliceFrom data header.data_offset
  Except.ok { header := header, data := rest }

/-! ## ARP cache (src/arp.rs)

The const generics `T` (hardware address width) and `U` (protocol
address width) are erased to plain `List Nat` addresses; `delete` takes
the width `T` explicitly to build the `[0; T]` blank. `SystemTime::now`
becomes an explicit `now` argument (epoch seconds). -/

inductive ARPCacheState
  | Free
  | Incomplete
  | Resolved
  | Static
deriving DecidableEq, Repr

structure ARPCacheEntry where
  hardware_address : List Nat
  protocol_address : List Nat
  state : ARPCacheState
  timeout : Nat
deriving DecidableEq, Repr

abbrev ARPCache := List (List Nat × ARPCacheEntry)

def ARP_CACHE_TIMEOUT_SECONDS : Nat := 30

/-- `HashMap::get`: first (and in a real map, only) binding of the key. -/
def cacheGet : ARPCache → List Nat → Option ARPCacheEntry
  | [], _ => none
  | p :: rest, k => if p.1 = k then some p.2 else cacheGet rest k

/-- `HashMap::insert`: replace the binding when the key is present,
otherwise add a new one. -/
def cacheInsert (cache : ARPCache) (k : List Nat) (v : ARPCacheEntry) : ARPCache :=
  if (cacheGet cache k).isSome then
    cache.map fun p => if p.1 = k then (k, v) else p
  else
    cache ++ [(k, v)]

/-- `HashMap::get_mut` followed by an in-place edit: apply `f` to the
entry bound to `k`, leave the map unchanged when `k` is absent. -/
def cacheModify (cache : ARPCache) (k : List Nat) (f : ARPCacheEntry → ARPCacheEntry) : ARPCache :=
  cache.map fun p => if p.1 = k then (p.1, f p.2) else p

structure ARPContext where
  cache : ARPCache
deriving DecidableEq, Repr

/-- `ARPContext::lookup`: `Some(hardware_address)` when the key is bound
and its entry is not `Free`, else `None`. -/
def ARPContext.lookup (ctx : ARPContext) (protocol_address : List Nat) : Option (List Nat) :=
  match cacheGet ctx.cache protocol_address with
  | some entry =>
      if entry.state ≠ ARPCacheState.Free then some entry.hardware_address else none
  | none => none

/-- `ARPContext::insert`: unconditionally store a `Resolved` entry with
expiry `now + 30`. -/
def ARPContext.insert (ctx : ARPContext) (hardware_address protocol_address : List Nat)
    (now : Nat) : ARPContext :=
  { cache :=
      cacheInsert ctx.cache protocol_address
        { hardware_address := hardware_address
          protocol_address := protocol_address
          state := ARPCacheState.Resolved
          timeout := now + ARP_CACHE_TIMEOUT_SECONDS } }

/-- `ARPContext::update`: refresh address, state and expiry of an
existing entry; a no-op when the key is absent. -/
def ARPContext.update (ctx : ARPContext) (hardware_address protocol_address : List Nat)
    (now : Nat) : ARPContext :=
  { cache :=
      cacheModify ctx.cache protocol_address fun e =>
        { e with
          hardware_address := hardware_address
          state := ARPCacheState.Resolved
          timeout := now + ARP_CACHE_TIMEOUT_SECONDS } }

/-- `ARPContext::delete` with hardware address width `T`: blank the
address to `[0; T]`, zero the timeout, flip the state to `Free`; the
slot itself stays in the map. -/
def ARPContext.delete (T : Nat) (ctx : ARPContext) (protocol_address : List Nat) : ARPContext :=
  { cache :=
      cacheModify ctx.cache protocol_address fun e =>
        { e with
          hardware_address := List.replicate T 0
          state := ARPCacheState.Free
          timeout := 0 } }

/-! ## IRQ subsystem (src/irq.rs) -/

def AVAILABLE_IRQ_MIN : Int := 35
def AVAILABLE_IRQ_MAX : Int := 64

structure IRQEntry where
  irq : Int
deriving DecidableEq, Repr

structure IRQContext where
  irq_entries : List IRQEntry
deriving DecidableEq, Repr

inductive IRQError
deriving DecidableEq

/-- `IRQContext::register`: build an entry for `irq` and push it onto
`irq_entries`; there is no validation of any kind and the only exit is
`Ok(())`. -/
def IRQContext.register (ctx : IRQContext) (irq : Int) : Except IRQError IRQContext :=
  Except.ok { irq_entries := ctx.irq_entries ++ [{ irq := irq }] }

/-! ## Device registry, devices, protocol dispatch (src/net.rs)

A payload (`String` in the source) is a byte sequence `List Nat` whose
`length` is the Rust byte length `data.len()`.  `raise_irq(n)` delivers
a process signal; the embedding records the raised signal numbers in an
event list instead of delivering them. -/

def DUMMY_IRQ : Int := 35
def LOOPBACK_IRQ : Int := 36
def NET_PROTOCOL_IP : Nat := 0x0800
/-- `signal_hook::consts::SIGUSR1` on Linux. -/
def SIGUSR1 : Int := 10

structure LoopbackNetDeviceQueueEntry where
  net_protocol_type : Nat
  data : List Nat
deriving DecidableEq, Repr

/-- `NetDeviceType`: the `LoopbackNetDevice` payload is its frame queue. -/
inductive NetDeviceType
  | Dummy
  | Loopback (queue : List LoopbackNetDeviceQueueEntry)
deriving DecidableEq, Repr

structure NetDevice where
  flags : Nat
  net_device_type : NetDeviceType
deriving DecidableEq, Repr

def FLAG_UP : Nat := 0x0001

/-- The `anyhow!` error strings of src/net.rs as error kinds. -/
inductive NetError
  | alreadyOpened
  | notOpened
  | tooLong
deriving DecidableEq, Repr

def NetDevice.is_up (d : NetDevice) : Bool := d.flags &&& FLAG_UP != 0

def NetDevice.mtu (d : NetDevice) : Nat :=
  match d.net_device_type with
  | NetDeviceType.Dummy => 65535
  | NetDeviceType.Loopback _ => 65535

/-- `NetDevice::open` (`open` is a Lean keyword, hence `openDev`):
fails when already up, otherwise sets `FLAG_UP`. -/
def NetDevice.openDev (d : NetDevice) : Except NetError Unit × NetDevice :=
  if d.is_up then (Except.error NetError.alreadyOpened, d)
  else (Except.ok (), { d with flags := d.flags ||| FLAG_UP })

/-- `NetDevice::close`: fails when not up, otherwise clears `FLAG_UP`
(`flags &= !FLAG_UP` on a `u16`). -/
def NetDevice.close (d : NetDevice) : Except NetError Unit × NetDevice :=
  if !d.is_up then (Except.error NetError.notOpened, d)
  else (Except.ok (), { d with flags := d.flags &&& (65535 - FLAG_UP) })

/-- `NetDevice::transmit`: reject when down or when the payload exceeds
the MTU; Dummy raises its hardware interrupt, Loopback pushes the entry
onto its frame queue and raises its hardware interrupt.  The raised
signal numbers are returned as events. -/
def NetDevice.transmit (d : NetDevice) (net_protocol_type : Nat) (data : List Nat) :
    Except NetError (List Int) × NetDevice :=
  if !d.is_up then (Except.error NetError.notOpened, d)
  else if d.mtu < data.length then (Except.error NetError.tooLong, d)
  else
    match d.net_device_type with
    | NetDeviceType.Dummy => (Except.ok [DUMMY_IRQ], d)
    | NetDeviceType.Loopback queue =>
        let entry : LoopbackNetDeviceQueueEntry :=
          { net_protocol_type := net_protocol_type, data := data }
        (Except.ok [LOOPBACK_IRQ],
         { d with net_device_type := NetDeviceType.Loopback (queue ++ [entry]) })

structure NetProtocol where
  protocol_type : Nat
  queue : List (List Nat)
deriving DecidableEq, Repr

/-- The mutable state of `NetDeviceContext`.  The `current_index`
counter and the weak `IRQContext` back-reference play no part in the
claims and are omitted; `irq_device_map` is an association list. -/
structure NetDeviceContext where
  net_devices : List NetDevice
  irq_device_map : List (Int × Nat)
  protocols : List NetProtocol
deriving DecidableEq, Repr

/-- `HashMap::<i32, u32>::get` on the irq→device map. -/
def mapGet : List (Int × Nat) → Int → Option Nat
  | [], _ => none
  | p :: rest, k => if p.1 = k then some p.2 else mapGet rest k

/-- The protocol scan inside `NetDeviceContext::input`: push onto the
first queue whose tag matches, raise `SIGUSR1`, and stop; later
protocols and non-matching ones are untouched. -/
def protocolsInput : List NetProtocol → Nat → List Nat → List NetProtocol × List Int
  | [], _, _ => ([], [])
  | p :: ps, protocol_type, data =>
      if p.protocol_type = protocol_type then
        ({ p with queue := p.queue ++ [data] } :: ps, [SIGUSR1])
      else
        let r := protocolsInput ps protocol_type data
        (p :: r.1, r.2)

/-- `NetDeviceContext::input`: enqueue on the matching protocol queue
and raise the deferred-processing signal; a silent no-op when no
protocol carries the tag. -/
def NetDeviceContext.input (ctx : NetDeviceContext) (protocol_type : Nat) (data : List Nat) :
    NetDeviceContext × List Int :=
  let r := protocolsInput ctx.protocols protocol_type data
  ({ ctx with protocols := r.1 }, r.2)

/-- The `while let Some(entry) = queue.pop()` drain of the Loopback
interrupt handler: `Vec::pop` removes the most recently pushed entry,
so the loop visits the frame-queue entries in reverse push order; this
function receives that already-reversed entry list and feeds each entry
to `NetDeviceContext::input` in order, accumulating raised signals. -/
def loopbackDrainRev : NetDeviceContext → List LoopbackNetDeviceQueueEntry →
    NetDeviceContext × List Int
  | ctx, [] => (ctx, [])
  | ctx, entry :: rest =>
      let r1 := ctx.input entry.net_protocol_type entry.data
      let r2 := loopbackDrainRev r1.1 rest
      (r2.1, r1.2 ++ r2.2)

/-- `NetDeviceContext::isr`: look up the device owning `irq`; unknown
irq numbers and out-of-range indices are silent no-ops.  For a Loopback
device the handler empties the frame queue, feeding the entries to
`input` in reverse push order; a Dummy handler does nothing. -/
def NetDeviceContext.isr (ctx : NetDeviceContext) (irq : Int) : NetDeviceContext × List Int :=
  match mapGet ctx.irq_device_map irq with
  | none => (ctx, [])
  | some index =>
      match ctx.net_devices[index]? with
      | none => (ctx, [])
      | some d =>
          match d.net_device_type with
          | NetDeviceType.Dummy => (ctx, [])
          | NetDeviceType.Loopback queue =>
              let d2 := { d with net_device_type := NetDeviceType.Loopback [] }
              loopbackDrainRev
                { ctx with net_devices := ctx.net_devices.set index d2 } queue.reverse

/-- `NetDeviceContext::transmit`: out-of-range indices are silent
no-ops; otherwise delegate to the device, propagating its error. -/
def NetDeviceContext.transmit (ctx : NetDeviceContext) (index : Nat)
    (net_protocol_type : Nat) (data : List Nat) :
    Except NetError Unit × NetDeviceContext × List Int :=
  match ctx.net_devices[index]? with
  | none => (Except.ok (), ctx, [])
  | some d =>
      let r := NetDevice.transmit d net_protocol_type data
      match r.1 with
      | Except.error e =>
          (Except.error e, { ctx with net_devices := ctx.net_devices.set index r.2 }, [])
      | Except.ok sigs =>
          (Except.ok (), { ctx with net_devices := ctx.net_devices.set index r.2 }, sigs)

/-- `NetDeviceContext::software_isr`: every protocol queue is popped to
empty; since `Vec::pop` removes the most recently pushed payload, the
payloads of each queue are processed in reverse push order.  The
processed `(tag, payload)` sequence is returned as the observable
dispatch order (the source logs and discards each payload). -/
def NetDeviceContext.software_isr (ctx : NetDeviceContext) :
    NetDeviceContext × List (Nat × List Nat) :=
  ({ ctx with protocols := ctx.protocols.map fun p => { p with queue := [] } },
   (ctx.protocols.map fun p => p.queue.reverse.map fun d => (p.protocol_type, d)).flatten)

/-! ## Helper lemmas about the association-list cache -/

theorem cacheGet_cacheInsert_of_isSome (c : ARPCache) (k : List Nat) (v : ARPCacheEntry)
    (h : (cacheGet c k).isSome) :
    cacheGet (c.map fun p => if p.1 = k then (k, v) else p) k = some v := by
  induction c with
  | nil => simp [cacheGet] at h
  | cons p c ih =>
      by_cases hpk : p.1 = k
      · simp [cacheGet, hpk]
      · simp [cacheGet, hpk] at h ⊢
        exact ih h

theorem cacheGet_append_of_none (c : ARPCache) (k : List Nat) (v : ARPCacheEntry)
    (h : cacheGet c k = none) :
    cacheGet (c ++ [(k, v)]) k = some v := by
  induction c with
  | nil => simp [cacheGet]
  | cons p c ih =>
      by_cases hpk : p.1 = k
      · simp [cacheGet, hpk] at h
      · simp [cacheGet, hpk] at h ⊢
        exact ih h

theorem cacheGet_cacheInsert (c : ARPCache) (k : List Nat) (v : ARPCacheEntry) :
    cacheGet (cacheInsert c k v) k = some v := by
  unfold cacheInsert
  by_cases h : (cacheGet c k).isSome
  · simp only [h, if_true]
    exact cacheGet_cacheInsert_of_isSome c k v h
  · simp only [h, if_false]
    exact cacheGet_append_of_none c k v (by
      cases hg : cacheGet c k with
      | none => rfl
      | some e => rw [hg] at h; simp at h)

theorem cacheGet_cacheModify (c : ARPCache) (k : List Nat) (f : ARPCacheEntry → ARPCacheEntry) :
    cacheGet (cacheModify c k f) k = (cacheGet c k).map f := by
  induction c with
  | nil => simp [cacheGet, cacheModify]
  | cons p c ih =>
      by_cases hpk : p.1 = k
      · simp [cacheGet, cacheModify, hpk]
      · simpa [cacheGet, cacheModify, hpk] using ih

/-- The implicit well-formedness of the cache map: every entry records
under its key its own protocol address. -/
def cacheWF (c : ARPCache) : Prop :=
  ∀ p ∈ c, p.2.protocol_address = p.1

instance (c : ARPCache) : Decidable (cacheWF c) :=
  decidable_of_iff (∀ p ∈ c, p.2.protocol_address = p.1) Iff.rfl

theorem cacheWF_cacheModify (c : ARPCache) (k : List Nat)
    (f : ARPCacheEntry → ARPCacheEntry)
    (hf : ∀ e, (f e).protocol_address = e.protocol_address)
    (h : cacheWF c) : cacheWF (cacheModify c k f) := by
  intro p hp
  rcases List.mem_map.mp hp with ⟨q, hq, rfl⟩
  by_cases hqk : q.1 = k
  · simp [hqk, hf, h q hq]
  · simp [hqk, h q hq]

theorem cacheWF_cacheInsert (c : ARPCache) (k : List Nat) (v : ARPCacheEntry)
    (hv : v.protocol_address = k) (h : cacheWF c) : cacheWF (cacheInsert c k v) := by
  unfold cacheInsert
  by_cases hs : (cacheGet c k).isSome
  · simp only [hs, if_true]
    intro p hp
    rcases List.mem_map.mp hp with ⟨q, hq, rfl⟩
    by_cases hqk : q.1 = k
    · simp [hqk, hv]
    · simp only [hqk, if_false]
      exact h q hq
  · simp only [hs, if_false]
    intro p hp
    rcases List.mem_append.mp hp with hp | hp
    · exact h p hp
    · rcases List.mem_singleton.mp hp with rfl
      exact hv

/-! ## Claims C5, C6, C10 -/

/-- C5: for every hardware address `A` and protocol address `X`, ARP
`insert(A, X)` always succeeds (it is total and returns the updated
cache), overwrites any existing entry for key `X` with a `Resolved`
entry whose expiry is `now + 30` seconds, and an immediately following
`lookup(X)` returns `Some(A)`. -/
theorem C5_arp_insert_lookup (ctx : ARPContext) (A X : List Nat) (now : Nat) :
    cacheGet (ctx.insert A X now).cache X =
      some { hardware_address := A, protocol_address := X
             state := ARPCacheState.Resolved, timeout := now + 30 } ∧
    (ctx.insert A X now).lookup X = some A := by
  have hget := cacheGet_cacheInsert ctx.cache X
    { hardware_address := A, protocol_address := X
      state := ARPCacheState.Resolved, timeout := now + ARP_CACHE_TIMEOUT_SECONDS }
  constructor
  · exact hget
  · simp [ARPContext.lookup, ARPContext.insert] at hget ⊢
    rw [hget]
    simp

/-- C6: for every protocol address `X` bound in the cache, `delete(X)`
keeps the map slot: the entry for `X` afterwards has an all-zero
hardware address, timeout `0` and state `Free`, and `lookup(X)` then
returns `None`. -/
theorem C6_arp_delete_soft (T : Nat) (ctx : ARPContext) (X : List Nat)
    (e : ARPCacheEntry) (h : cacheGet ctx.cache X = some e) :
    cacheGet (ctx.delete T X).cache X =
      some { hardware_address := List.replicate T 0
             protocol_address := e.protocol_address
             state := ARPCacheState.Free, timeout := 0 } ∧
    (ctx.delete T X).lookup X = none := by
  have hget := cacheGet_cacheModify ctx.cache X
    (fun e => { e with hardware_address := List.replicate T 0
                       state := ARPCacheState.Free, timeout := 0 })
  rw [h] at hget
  constructor
  · exact hget
  · simp [ARPContext.lookup, ARPContext.delete] at hget ⊢
    rw [hget]
    simp

/-- C6 witness: deleting a concrete resolved entry blanks it in place
and makes the lookup miss. -/
theorem C6_arp_delete_soft_witness :
    cacheGet (ARPContext.delete 6
        { cache := [([10, 0, 0, 1],
            { hardware_address := [1, 2, 3, 4, 5, 6], protocol_address := [10, 0, 0, 1]
              state := ARPCacheState.Resolved, timeout := 99 })] } [10, 0, 0, 1]).cache
        [10, 0, 0, 1] =
      some { hardware_address := List.replicate 6 0, protocol_address := [10, 0, 0, 1]
             state := ARPCacheState.Free, timeout := 0 } ∧
    (ARPContext.delete 6
        { cache := [([10, 0, 0, 1],
            { hardware_address := [1, 2, 3, 4, 5, 6], protocol_address := [10, 0, 0, 1]
              state := ARPCacheState.Resolved, timeout := 99 })] }
        [10, 0, 0, 1]).lookup [10, 0, 0, 1] = none :=
  C6_arp_delete_soft 6
    { cache := [([10, 0, 0, 1],
        { hardware_address := [1, 2, 3, 4, 5, 6], protocol_address := [10, 0, 0, 1]
          state := ARPCacheState.Resolved, timeout := 99 })] } [10, 0, 0, 1]
    { hardware_address := [1, 2, 3, 4, 5, 6], protocol_address := [10, 0, 0, 1]
      state := ARPCacheState.Resolved, timeout := 99 } (by decide)

/-- C10: the implicit map invariant — every cached entry's
`protocol_address` field equals its key — holds for the empty cache and
is preserved by `insert`, `update` and `delete` (`lookup` takes `&self`
and mutates nothing, so it preserves the invariant trivially). -/
theorem C10_cache_key_invariant :
    cacheWF [] ∧
    (∀ (ctx : ARPContext) (hw pa : List Nat) (now : Nat),
      cacheWF ctx.cache → cacheWF (ctx.insert hw pa now).cache) ∧
    (∀ (ctx : ARPContext) (hw pa : List Nat) (now : Nat),
      cacheWF ctx.cache → cacheWF (ctx.update hw pa now).cache) ∧
    (∀ (T : Nat) (ctx : ARPContext) (pa : List Nat),
      cacheWF ctx.cache → cacheWF (ctx.delete T pa).cache) := by
  refine ⟨?_, ?_, ?_, ?_⟩
  · intro p hp
    simp at hp
  · intro ctx hw pa now h
    exact cacheWF_cacheInsert ctx.cache pa _ rfl h
  · intro ctx hw pa now h
    exact cacheWF_cacheModify ctx.cache pa
      (fun e => { e with hardware_address := hw, state := ARPCacheState.Resolved
                         timeout := now + ARP_CACHE_TIMEOUT_SECONDS })
      (fun e => rfl) h
  · intro T ctx pa h
    exact cacheWF_cacheModify ctx.cache pa
      (fun e => { e with hardware_address := List.replicate T 0
                         state := ARPCacheState.Free, timeout := 0 })
      (fun e => rfl) h

/-- C10 witness: the invariant, checked on a concrete chain of
operations starting from the empty cache. -/
theorem C10_cache_key_invariant_witness :
    cacheWF ((ARPContext.delete 6
      (ARPContext.insert { cache := [] } [1, 2, 3, 4, 5, 6] [10, 0, 0, 1] 100)
      [10, 0, 0, 1]).cache) :=
  C10_cache_key_invariant.2.2.2 6
    (ARPContext.insert { cache := [] } [1, 2, 3, 4, 5, 6] [10, 0, 0, 1] 100) [10, 0, 0, 1]
    (C10_cache_key_invariant.2.1 { cache := [] } [1, 2, 3, 4, 5, 6] [10, 0, 0, 1] 100
      (by decide))

/-! ## Claims C1, C2, C7, C4 -/

/-- C1, refuted on the code: the spec says a buffer with fewer than
`IHL * 4` bytes (including one shorter than the 20-byte fixed header)
makes `IPPacket::parse` return a parse error to its caller, never
panic; but the parser indexes `data[0]`…`data[19]` and slices
`data[20..IHL*4]` without bounds checks, so the 1-byte buffer `[0x45]`
(version 4, IHL 5, so 1 < IHL*4 = 20) and the empty buffer both panic
with an out-of-bounds access instead of returning an error. -/
theorem C1_truncated_parse_panics :
    IPPacket.parse [0x45] = Except.error PFailure.panicked ∧
    IPPacket.parse [] = Except.error PFailure.panicked ∧
    ([0x45] : List Nat).length < 20 := ⟨rfl, rfl, by decide⟩

/-- `Result::is_ok`. -/
def resultIsOk {ε α : Type} : Except ε α → Bool
  | Except.ok _ => true
  | Except.error _ => false

/-- C2: for every device and payload, `NetDevice::transmit` succeeds
iff the device is up and the payload length is at most the MTU, which
is `u16::MAX = 65535` for both variants; a down device fails with the
not-opened kind, an oversized payload on an up device fails with the
too-long kind, and both failures leave the device unchanged. -/
theorem C2_transmit_iff (d : NetDevice) (tag : Nat) (data : List Nat) :
    (resultIsOk (d.transmit tag data).1 = true ↔
      (d.is_up = true ∧ data.length ≤ 65535)) ∧
    d.mtu = 65535 ∧
    (d.is_up = false → d.transmit tag data = (Except.error NetError.notOpened, d)) ∧
    (d.is_up = true → 65535 < data.length →
      d.transmit tag data = (Except.error NetError.tooLong, d)) := by
  have hmtu : d.mtu = 65535 := by
    unfold NetDevice.mtu
    cases d.net_device_type <;> rfl
  refine ⟨?_, hmtu, ?_, ?_⟩
  · unfold NetDevice.transmit
    rw [hmtu]
    cases hup : d.is_up with
    | false => simp [resultIsOk]
    | true =>
        by_cases hlen : 65535 < data.length
        · simp [resultIsOk, hlen]
        · cases d.net_device_type <;> simp [resultIsOk, hlen] <;> omega
  · intro hup
    unfold NetDevice.transmit
    simp [hup]
  · intro hup hlen
    unfold NetDevice.transmit
    rw [hmtu]
    simp [hup, hlen]

/-- C2 witness: a concrete down Dummy device rejects a transmit with
the not-opened kind and is returned unchanged. -/
theorem C2_transmit_iff_witness :
    NetDevice.transmit { flags := 0, net_device_type := NetDeviceType.Dummy } 2048 [1, 2] =
      (Except.error NetError.notOpened,
       { flags := 0, net_device_type := NetDeviceType.Dummy }) :=
  (C2_transmit_iff { flags := 0, net_device_type := NetDeviceType.Dummy } 2048 [1, 2]).2.2.1
    (by decide)

/-- C7: `open` on an up device always fails with the already-opened
kind and leaves the device unchanged; `close` on a device that is not
up always fails with the not-opened kind and leaves the device
unchanged. -/
theorem C7_open_close_guards (d : NetDevice) :
    (d.is_up = true → d.openDev = (Except.error NetError.alreadyOpened, d)) ∧
    (d.is_up = false → d.close = (Except.error NetError.notOpened, d)) := by
  constructor
  · intro hup
    unfold NetDevice.openDev
    simp [hup]
  · intro hup
    unfold NetDevice.close
    simp [hup]

/-- C7 witness: a concrete up device rejects `open`, a concrete down
device rejects `close`, both unchanged. -/
theorem C7_open_close_guards_witness :
    NetDevice.openDev { flags := 1, net_device_type := NetDeviceType.Dummy } =
      (Except.error NetError.alreadyOpened,
       { flags := 1, net_device_type := NetDeviceType.Dummy }) ∧
    NetDevice.close { flags := 0, net_device_type := NetDeviceType.Dummy } =
      (Except.error NetError.notOpened,
       { flags := 0, net_device_type := NetDeviceType.Dummy }) :=
  ⟨(C7_open_close_guards { flags := 1, net_device_type := NetDeviceType.Dummy }).1 (by decide),
   (C7_open_close_guards { flags := 0, net_device_type := NetDeviceType.Dummy }).2 (by decide)⟩

/-- C4, refuted on the code: the claim says `IRQContext::register`
succeeds only for irq numbers in the configured range
`AVAILABLE_IRQ_MIN..AVAILABLE_IRQ_MAX`, but `register` performs no
validation: irq 100 is out of range yet `register` succeeds and
retains the binding. -/
theorem C4_register_out_of_range_accepted :
    IRQContext.register { irq_entries := [] } 100 =
      Except.ok { irq_entries := [{ irq := 100 }] } ∧
    ¬ (AVAILABLE_IRQ_MIN ≤ 100 ∧ (100 : Int) ≤ AVAILABLE_IRQ_MAX) := ⟨rfl, by decide⟩

/-- C4 amended: `IRQContext::register` validates nothing — for every
prior state and every irq number, in range or not, it succeeds and
appends the binding to `irq_entries`. -/
theorem C4_register_unchecked (ctx : IRQContext) (irq : Int) :
    IRQContext.register ctx irq =
      Except.ok { irq_entries := ctx.irq_entries ++ [{ irq := irq }] } := rfl

/-! ## Scenario contexts and drain lemmas for the loopback path -/

/-- A registry holding one up Loopback device (frame queue `q`), its
irq binding, and one registered protocol with tag `tag` (queue `pq`). -/
def loopCtx (tag : Nat) (q : List LoopbackNetDeviceQueueEntry) (pq : List (List Nat)) :
    NetDeviceContext :=
  { net_devices := [{ flags := FLAG_UP, net_device_type := NetDeviceType.Loopback q }]
    irq_device_map := [(LOOPBACK_IRQ, 0)]
    protocols := [{ protocol_type := tag, queue := pq }] }

theorem loopbackDrainRev_single (devs : List NetDevice) (m : List (Int × Nat))
    (tag : Nat) (pq : List (List Nat)) (es : List LoopbackNetDeviceQueueEntry)
    (hall : ∀ e ∈ es, e.net_protocol_type = tag) :
    loopbackDrainRev
      { net_devices := devs, irq_device_map := m
        protocols := [{ protocol_type := tag, queue := pq }] } es =
      ({ net_devices := devs, irq_device_map := m
         protocols := [{ protocol_type := tag, queue := pq ++ es.map fun e => e.data }] },
       List.replicate es.length SIGUSR1) := by
  induction es generalizing pq with
  | nil => simp [loopbackDrainRev]
  | cons e es ih =>
      have he : e.net_protocol_type = tag := hall e (List.mem_cons_self e es)
      have hrest : ∀ x ∈ es, x.net_protocol_type = tag :=
        fun x hx => hall x (List.mem_cons_of_mem e hx)
      have hstep : NetDeviceContext.input
          { net_devices := devs, irq_device_map := m
            protocols := [{ protocol_type := tag, queue := pq }] }
          e.net_protocol_type e.data =
          ({ net_devices := devs, irq_device_map := m
             protocols := [{ protocol_type := tag, queue := pq ++ [e.data] }] },
           [SIGUSR1]) := by
        simp [NetDeviceContext.input, protocolsInput, he]
      simp only [loopbackDrainRev, hstep]
      rw [ih (pq ++ [e.data]) hrest]
      simp [List.replicate_succ]

theorem loopCtx_transmit (tag : Nat) (q : List LoopbackNetDeviceQueueEntry)
    (pq : List (List Nat)) (d : List Nat) (hlen : d.length ≤ 65535) :
    (loopCtx tag q pq).transmit 0 tag d =
      (Except.ok (),
       loopCtx tag (q ++ [{ net_protocol_type := tag, data := d }]) pq,
       [LOOPBACK_IRQ]) := by
  have hnl : ¬ 65535 < d.length := Nat.not_lt.mpr hlen
  simp [loopCtx, NetDeviceContext.transmit, NetDevice.transmit, NetDevice.is_up,
        NetDevice.mtu, FLAG_UP, hnl]

theorem loopCtx_isr (tag : Nat) (q : List LoopbackNetDeviceQueueEntry)
    (pq : List (List Nat)) (hall : ∀ e ∈ q, e.net_protocol_type = tag) :
    (loopCtx tag q pq).isr LOOPBACK_IRQ =
      (loopCtx tag [] (pq ++ q.reverse.map fun e => e.data),
       List.replicate q.length SIGUSR1) := by
  have hrev : ∀ e ∈ q.reverse, e.net_protocol_type = tag :=
    fun e he => hall e (List.mem_reverse.mp he)
  have hdrain := loopbackDrainRev_single
    [{ flags := FLAG_UP, net_device_type := NetDeviceType.Loopback [] }]
    [(LOOPBACK_IRQ, 0)] tag pq q.reverse hrev
  simp [loopCtx, NetDeviceContext.isr, mapGet, hdrain, List.length_reverse]

/-! ## Claims C3, C8 -/

/-- C3: from an up Loopback device with empty queues and a registered
protocol tag, `transmit(loopback_index, tag, payload)` succeeds, the
device's interrupt handler then moves exactly one entry carrying
`payload` onto the protocol queue registered for `tag` (and empties the
frame queue), and a subsequent `software_isr` leaves that protocol
queue empty. -/
theorem C3_loopback_roundtrip (tag : Nat) (payload : List Nat)
    (hlen : payload.length ≤ 65535) :
    ((loopCtx tag [] []).transmit 0 tag payload).1 = Except.ok () ∧
    (((loopCtx tag [] []).transmit 0 tag payload).2.1.isr LOOPBACK_IRQ).1 =
      loopCtx tag [] [payload] ∧
    ((((loopCtx tag [] []).transmit 0 tag payload).2.1.isr LOOPBACK_IRQ).1.software_isr).1 =
      loopCtx tag [] [] := by
  have ht := loopCtx_transmit tag [] [] payload hlen
  simp only [List.nil_append] at ht
  have h1 : ((loopCtx tag [] []).transmit 0 tag payload).2.1 =
      loopCtx tag [{ net_protocol_type := tag, data := payload }] [] := by
    rw [ht]
  have hi := loopCtx_isr tag [{ net_protocol_type := tag, data := payload }] [] (by simp)
  simp only [List.reverse_cons, List.reverse_nil, List.nil_append, List.map_cons,
    List.map_nil, List.replicate_succ, List.replicate_zero] at hi
  refine ⟨by rw [ht], ?_, ?_⟩
  · rw [h1, hi]
  · rw [h1, hi]
    simp [NetDeviceContext.software_isr, loopCtx]

/-- C3 witness: the roundtrip at tag 0x0800 with payload `[1, 2, 3]`. -/
theorem C3_loopback_roundtrip_witness :
    ((loopCtx 2048 [] []).transmit 0 2048 [1, 2, 3]).1 = Except.ok () ∧
    (((loopCtx 2048 [] []).transmit 0 2048 [1, 2, 3]).2.1.isr LOOPBACK_IRQ).1 =
      loopCtx 2048 [] [[1, 2, 3]] ∧
    ((((loopCtx 2048 [] []).transmit 0 2048 [1, 2, 3]).2.1.isr
        LOOPBACK_IRQ).1.software_isr).1 =
      loopCtx 2048 [] [] :=
  C3_loopback_roundtrip 2048 [1, 2, 3] (by decide)

theorem protocolsInput_no_match (ps : List NetProtocol) (tag : Nat) (data : List Nat)
    (h : ∀ p ∈ ps, p.protocol_type ≠ tag) :
    protocolsInput ps tag data = (ps, []) := by
  induction ps with
  | nil => rfl
  | cons p ps ih =>
      have hp : p.protocol_type ≠ tag := h p (List.mem_cons_self p ps)
      have hrest : ∀ x ∈ ps, x.protocol_type ≠ tag :=
        fun x hx => h x (List.mem_cons_of_mem p hx)
      simp [protocolsInput, hp, ih hrest]

/-- C8: registry lookup misses are silent no-ops, not errors — an
out-of-range device index makes `transmit` return success with nothing
changed and no signal raised; an irq absent from the irq→device map
makes `isr` return with nothing changed; an unregistered protocol tag
makes `input` drop the payload, changing nothing and raising nothing.
(Every operation is a total function here, so no case panics.) -/
theorem C8_lookup_misses (ctx : NetDeviceContext) (i tag : Nat) (data : List Nat)
    (irq : Int) :
    (ctx.net_devices.length ≤ i →
      ctx.transmit i tag data = (Except.ok (), ctx, [])) ∧
    (mapGet ctx.irq_device_map irq = none → ctx.isr irq = (ctx, [])) ∧
    ((∀ p ∈ ctx.protocols, p.protocol_type ≠ tag) → ctx.input tag data = (ctx, [])) := by
  refine ⟨?_, ?_, ?_⟩
  · intro h
    unfold NetDeviceContext.transmit
    rw [List.getElem?_eq_none h]
  · intro h
    unfold NetDeviceContext.isr
    rw [h]
  · intro h
    unfold NetDeviceContext.input
    rw [protocolsInput_no_match ctx.protocols tag data h]

/-- C8 witness: the three misses on a registry with no devices, no irq
bindings and no protocols. -/
theorem C8_lookup_misses_witness :
    NetDeviceContext.transmit
        { net_devices := [], irq_device_map := [], protocols := [] } 0 2048 [1] =
      (Except.ok (), { net_devices := [], irq_device_map := [], protocols := [] }, []) ∧
    NetDeviceContext.isr
        { net_devices := [], irq_device_map := [], protocols := [] } 35 =
      ({ net_devices := [], irq_device_map := [], protocols := [] }, []) ∧
    NetDeviceContext.input
        { net_devices := [], irq_device_map := [], protocols := [] } 2048 [1] =
      ({ net_devices := [], irq_device_map := [], protocols := [] }, []) :=
  ⟨(C8_lookup_misses { net_devices := [], irq_device_map := [], protocols := [] }
      0 2048 [1] 35).1 (by decide),
   (C8_lookup_misses { net_devices := [], irq_device_map := [], protocols := [] }
      0 2048 [1] 35).2.1 (by decide),
   (C8_lookup_misses { net_devices := [], irq_device_map := [], protocols := [] }
      0 2048 [1] 35).2.2 (by decide)⟩

/-! ## Claim C9: LIFO drain order -/

/-- A sequence of `NetDeviceContext::input` calls with one tag. -/
def inputAll (ctx : NetDeviceContext) (tag : Nat) : List (List Nat) → NetDeviceContext
  | [] => ctx
  | d :: ds => inputAll (ctx.input tag d).1 tag ds

/-- A sequence of `NetDeviceContext::transmit` calls to device 0 with
one tag. -/
def transmitAll (ctx : NetDeviceContext) (tag : Nat) : List (List Nat) → NetDeviceContext
  | [] => ctx
  | d :: ds => transmitAll ((ctx.transmit 0 tag d).2.1) tag ds

theorem inputAll_loopCtx (tag : Nat) (q : List LoopbackNetDeviceQueueEntry)
    (pq qs : List (List Nat)) :
    inputAll (loopCtx tag q pq) tag qs = loopCtx tag q (pq ++ qs) := by
  induction qs generalizing pq with
  | nil => simp [inputAll]
  | cons d ds ih =>
      have hstep : ((loopCtx tag q pq).input tag d).1 = loopCtx tag q (pq ++ [d]) := by
        simp [loopCtx, NetDeviceContext.input, protocolsInput]
      simp only [inputAll, hstep, ih]
      simp

theorem transmitAll_loopCtx (tag : Nat) (q : List LoopbackNetDeviceQueueEntry)
    (pq : List (List Nat)) (ps : List (List Nat))
    (hall : ∀ d ∈ ps, d.length ≤ 65535) :
    transmitAll (loopCtx tag q pq) tag ps =
      loopCtx tag (q ++ ps.map fun d => { net_protocol_type := tag, data := d }) pq := by
  induction ps generalizing q with
  | nil => simp [transmitAll]
  | cons d ds ih =>
      have hd : d.length ≤ 65535 := hall d (List.mem_cons_self d ds)
      have hrest : ∀ x ∈ ds, x.length ≤ 65535 :=
        fun x hx => hall x (List.mem_cons_of_mem d hx)
      have hstep := loopCtx_transmit tag q pq d hd
      have ih2 := ih (q ++ [{ net_protocol_type := tag, data := d }]) hrest
      simp only [transmitAll, hstep]
      rw [ih2]
      simp

theorem map_data_map_entry (tag : Nat) (l : List (List Nat)) :
    (l.map fun d =>
        ({ net_protocol_type := tag, data := d } : LoopbackNetDeviceQueueEntry)).map
      (fun e => e.data) = l := by
  induction l with
  | nil => rfl
  | cons a l ih =>
      simp only [List.map_cons]
      rw [ih]

/-- C9: with one registered protocol tag, payloads enqueued onto the
protocol dispatch queue by successive `input` calls sit in the queue in
submission order, and `software_isr` dequeues them in reverse
(last-in-first-out) order, leaving the queue empty; likewise, frames
enqueued on the Loopback device by successive `transmit` calls sit in
the frame queue in submission order, and the device's interrupt handler
dequeues them in reverse order — it hands them to `input` last-in-first,
so the protocol queue ends up holding the payloads reversed — leaving
the frame queue empty. -/
theorem C9_lifo_drain (tag : Nat) (qs ps : List (List Nat))
    (hall : ∀ d ∈ ps, d.length ≤ 65535) :
    (inputAll (loopCtx tag [] []) tag qs).protocols =
      [{ protocol_type := tag, queue := qs }] ∧
    (inputAll (loopCtx tag [] []) tag qs).software_isr =
      (loopCtx tag [] [], qs.reverse.map fun d => (tag, d)) ∧
    (transmitAll (loopCtx tag [] []) tag ps).net_devices =
      [{ flags := FLAG_UP
         net_device_type := NetDeviceType.Loopback
           (ps.map fun d => { net_protocol_type := tag, data := d }) }] ∧
    ((transmitAll (loopCtx tag [] []) tag ps).isr LOOPBACK_IRQ).1 =
      loopCtx tag [] ps.reverse := by
  have hin := inputAll_loopCtx tag [] [] qs
  simp only [List.nil_append] at hin
  have htr := transmitAll_loopCtx tag [] [] ps hall
  simp only [List.nil_append] at htr
  have hmm := map_data_map_entry tag ps
  refine ⟨?_, ?_, ?_, ?_⟩
  · rw [hin]
    rfl
  · rw [hin]
    simp [NetDeviceContext.software_isr, loopCtx]
  · rw [htr]
    rfl
  · rw [htr]
    have hisr := loopCtx_isr tag
      (ps.map fun d => { net_protocol_type := tag, data := d }) [] (by simp)
    rw [hisr]
    rw [List.map_reverse] at hisr ⊢
    rw [hmm]
    simp

/-- C9 witness: three payloads fed to `input` drain through
`software_isr` in reverse order, and two frames transmitted through the
Loopback device reach the protocol queue in reverse order, with both
queues left empty. -/
theorem C9_lifo_drain_witness :
    (inputAll (loopCtx 2048 [] []) 2048 [[1], [2], [3]]).protocols =
      [{ protocol_type := 2048, queue := [[1], [2], [3]] }] ∧
    (inputAll (loopCtx 2048 [] []) 2048 [[1], [2], [3]]).software_isr =
      (loopCtx 2048 [] [], [(2048, [3]), (2048, [2]), (2048, [1])]) ∧
    (transmitAll (loopCtx 2048 [] []) 2048 [[4], [5]]).net_devices =
      [{ flags := FLAG_UP
         net_device_type := NetDeviceType.Loopback
           [{ net_protocol_type := 2048, data := [4] },
            { net_protocol_type := 2048, data := [5] }] }] ∧
    ((transmitAll (loopCtx 2048 [] []) 2048 [[4], [5]]).isr LOOPBACK_IRQ).1 =
      loopCtx 2048 [] [[5], [4]] := by
  have h := C9_lifo_drain 2048 [[1], [2], [3]] [[4], [5]] (by decide)
  simpa using h

end Spec2Proof
